import Mathlib

/-!
Verification of the KCM data-export script (`exportscript.py`).

The script's core is `export_to_json` (lines 85-166): it folds the joined
row stream into a `group -> connection -> facets` tree, and
`fetch_dropdown_options` (lines 55-83): it parses MySQL `enum(...)` column
type declarations into lists of permitted values.

We embed the row-aggregation loop (lines 105-151), the early return on an
empty row set (lines 101-103), and the enum parsing (lines 70-75) as
executable Lean functions, translated step by step from the Python source.
Python `None` becomes `Option.none`; Python string truthiness (`None` and
`""` are falsy) is modelled explicitly.
-/

namespace KCM

/-- One row of the join query (lines 26-53): the columns selected by the
fixed SQL statement, all nullable except the connection id coming from the
base table `guacamole_connection`. -/
structure Row where
  connection_id : Nat
  name : Option String
  protocol : Option String
  parameter_name : Option String
  parameter_value : Option String
  attribute_name : Option String
  attribute_value : Option String
  connection_group_id : Option Nat
  group_name : Option String
  entity_name : Option String
  entity_type : Option String
deriving DecidableEq, Repr

/-- A connection object as built by the dict literal at lines 121-129. The
`parameters` and `attributes` dicts are insertion-ordered association
lists; `users` and `groups` hold the raw (possibly null) entity names the
loop appends. -/
structure Connection where
  connection_id : Nat
  name : String
  protocol : String
  parameters : List (String × Option String)
  attributes : List (String × Option String)
  users : List (Option String)
  groups : List (Option String)
deriving DecidableEq, Repr

/-- A group object as built at lines 111-114. -/
structure Group where
  group_name : String
  connections : List Connection
deriving DecidableEq, Repr

/-- The insertion-ordered dict `groups` of line 105, keyed by the nullable
`connection_group_id`. -/
abbrev GroupsMap := List (Option Nat × Group)

/-- Python `x or d` for a nullable string `x`: `None` and `""` are falsy,
so both yield the default (lines 112, 123, 124). -/
def pyOr (v : Option String) (d : String) : String :=
  match v with
  | none => d
  | some s => if s = "" then d else s

/-- Python dict assignment `m[k] = v`: overwrite in place if the key
exists (keeping its position), else append at the end. -/
def updateAssoc {β : Type} (m : List (String × β)) (k : String) (v : β) :
    List (String × β) :=
  match m with
  | [] => [(k, v)]
  | (k₁, v₁) :: rest =>
    if k₁ = k then (k, v) :: rest else (k₁, v₁) :: updateAssoc rest k v

/-- The fresh connection dict of lines 121-129, with the name and protocol
fallbacks of lines 123-124. -/
def newConnection (r : Row) : Connection :=
  { connection_id := r.connection_id
    name := pyOr r.name ("Unnamed Connection " ++ toString r.connection_id)
    protocol := pyOr r.protocol "ssh"
    parameters := []
    attributes := []
    users := []
    groups := [] }

/-- Lines 132-134: `if row[parameter_name]: connection[parameters][...] = ...`
(Python truthiness: skipped when the name is null or empty). -/
def addParam (r : Row) (c : Connection) : Connection :=
  match r.parameter_name with
  | none => c
  | some s =>
    if s = "" then c
    else { c with parameters := updateAssoc c.parameters s r.parameter_value }

/-- Lines 136-138: the attribute analogue of `addParam`. -/
def addAttr (r : Row) (c : Connection) : Connection :=
  match r.attribute_name with
  | none => c
  | some s =>
    if s = "" then c
    else { c with attributes := updateAssoc c.attributes s r.attribute_value }

/-- Lines 140-142: append `row[entity_name]` to `users` when the entity
type is `USER` and the (possibly null) name is not already present. Note
the source has no null check on the entity name itself. -/
def addUser (r : Row) (c : Connection) : Connection :=
  if r.entity_type = some "USER" ∧ r.entity_name ∉ c.users then
    { c with users := c.users ++ [r.entity_name] }
  else c

/-- Lines 144-146: append to `groups` when the entity type is `USER_GROUP`. -/
def addUserGroup (r : Row) (c : Connection) : Connection :=
  if r.entity_type = some "USER_GROUP" ∧ r.entity_name ∉ c.groups then
    { c with groups := c.groups ++ [r.entity_name] }
  else c

/-- Lines 132-146: all four facet updates applied to the located
connection, in source order. -/
def addFacets (r : Row) (c : Connection) : Connection :=
  addUserGroup r (addUser r (addAttr r (addParam r c)))

/-- Lines 116-130 plus 132-146 for one group's connection list: locate the
connection with the row's id (the `next(...)` scan of lines 116-119); if
absent create it and append it (lines 120-130); then apply the facet
updates to it. -/
def updateConnList (r : Row) : List Connection → List Connection
  | [] => [addFacets r (newConnection r)]
  | c :: rest =>
    if c.connection_id = r.connection_id then addFacets r c :: rest
    else c :: updateConnList r rest

/-- One iteration of the row loop (lines 106-146): create the group on
first sight of its id (lines 110-114, with the `"ROOT"` fallback), then
fold the row into that group's connection list. -/
def updateGroups (gs : GroupsMap) (r : Row) : GroupsMap :=
  match gs with
  | [] => [(r.connection_group_id,
      { group_name := pyOr r.group_name "ROOT"
        connections := updateConnList r [] })]
  | (gid, g) :: rest =>
    if gid = r.connection_group_id then
      (gid, { g with connections := updateConnList r g.connections }) :: rest
    else (gid, g) :: updateGroups rest r

/-- The whole row loop of lines 105-146. -/
def aggregate (rows : List Row) : GroupsMap :=
  rows.foldl updateGroups []

/-- `list(groups.values())` of line 149: the groups in insertion order. -/
def exportConnections (rows : List Row) : List Group :=
  (aggregate rows).map Prod.snd

/-- The export document of lines 148-151. -/
structure ExportDoc where
  connections : List Group
  dropdown_options : List (String × List String)
deriving DecidableEq, Repr

/-- Lines 101-154 of `export_to_json`, after the fetches: on an empty row
set the function prints a message and returns early (lines 101-103), so no
document is built or written; otherwise the aggregated document of lines
148-151 is produced. -/
def export_to_json (dropdown_options : List (String × List String))
    (rows : List Row) : Option ExportDoc :=
  if rows = [] then none
  else some { connections := exportConnections rows
              dropdown_options := dropdown_options }

/-- The single-quote character, spelled by code point to keep source
strings plain. -/
def squote : Char := Char.ofNat 39

/-- The character set of Python `.strip("enum()")` at line 74. -/
def enumStripSet : List Char := ['e', 'n', 'u', 'm', '(', ')']

/-- Python `s.strip(chars)`: remove characters of the set from both ends. -/
def pyStrip (cs : List Char) (s : String) : String :=
  String.mk (((s.data.dropWhile (fun ch => cs.contains ch)).reverse.dropWhile
    (fun ch => cs.contains ch)).reverse)

/-- Python `s.split(sep)` for a one-character separator: split at every
occurrence, keeping empty pieces (`"".split(",") == [""]`). -/
def splitChar (sep : Char) : List Char → List (List Char)
  | [] => [[]]
  | c :: rest =>
    match splitChar sep rest with
    | [] => [[c]]
    | h :: t => if c = sep then [] :: h :: t else (c :: h) :: t

/-- Line 74: `column_type.strip("enum()").replace("'", "").split(",")`.
Replacing the one-character quote pattern by the empty string deletes
every quote character. -/
def parseEnumOptions (columnType : String) : List String :=
  (splitChar ','
    ((pyStrip enumStripSet columnType).data.filter (fun ch => ch != squote))).map
    String.mk

/-- The loop of lines 70-75 of `fetch_dropdown_options`: build the
`dropdown_options` dict from the `(COLUMN_NAME, COLUMN_TYPE)` rows. -/
def fetch_dropdown_options (enum_fields : List (String × String)) :
    List (String × List String) :=
  enum_fields.foldl (fun acc f => updateAssoc acc f.1 (parseEnumOptions f.2)) []

/-! ## JSON shape of a serialized connection (for the output-format claims) -/

/-- JSON values as `json.dump` would emit them for this document. -/
inductive JValue where
  | jnull : JValue
  | jstr : String → JValue
  | jint : Nat → JValue
  | jarr : List JValue → JValue
  | jobj : List (String × JValue) → JValue

/-- A nullable string serializes to `null` or a JSON string. -/
def optStrToJson : Option String → JValue
  | none => JValue.jnull
  | some s => JValue.jstr s

/-- The JSON object `json.dump` emits for one connection dict: exactly the
seven keys of lines 121-129, values serialized as Python would. -/
def connectionToJson (c : Connection) : JValue :=
  JValue.jobj
    [("connection_id", JValue.jint c.connection_id),
     ("name", JValue.jstr c.name),
     ("protocol", JValue.jstr c.protocol),
     ("parameters", JValue.jobj (c.parameters.map (fun p => (p.1, optStrToJson p.2)))),
     ("attributes", JValue.jobj (c.attributes.map (fun p => (p.1, optStrToJson p.2)))),
     ("users", JValue.jarr (c.users.map optStrToJson)),
     ("groups", JValue.jarr (c.groups.map optStrToJson))]

/-- Is this JSON value a string literal? -/
def isJStr : JValue → Bool
  | JValue.jstr _ => true
  | _ => false

/-- The output-format predicate of the spec on one serialized connection:
all seven fields present in order, `connection_id` a plain integer, and
every other leaf value a string. -/
def jsonStringLeavesOk (j : JValue) : Bool :=
  match j with
  | JValue.jobj [(k₁, JValue.jint _), (k₂, JValue.jstr _), (k₃, JValue.jstr _),
                 (k₄, JValue.jobj ps), (k₅, JValue.jobj ats),
                 (k₆, JValue.jarr us), (k₇, JValue.jarr grs)] =>
    decide (k₁ = "connection_id") && decide (k₂ = "name") &&
    decide (k₃ = "protocol") && decide (k₄ = "parameters") &&
    decide (k₅ = "attributes") && decide (k₆ = "users") &&
    decide (k₇ = "groups") &&
    ps.all (fun p => isJStr p.2) && ats.all (fun p => isJStr p.2) &&
    us.all isJStr && grs.all isJStr
  | _ => false

/-! ## Specification-side order function

For the order-preservation claim we compare the code's output order with
the spec's words "in the order their identifiers first occur": folding the
sequence left to right and appending each element not yet seen. -/

/-- Append `x` unless already present: one step of first-occurrence
deduplication. -/
def insStep {α : Type} [DecidableEq α] (acc : List α) (x : α) : List α :=
  if x ∈ acc then acc else acc ++ [x]

/-- The spec's order: elements in the order of their first occurrence. -/
def firstOccurrenceOrder {α : Type} [DecidableEq α] (l : List α) : List α :=
  l.foldl insStep []

/-! ## Counting connection objects for a `(group_id, connection_id)` pair -/

/-- How often the group entry under key `gid` holds a connection with id
`cid`, summed over the whole structure: the number of connection objects
the output contains for the pair. -/
def pairCount (gs : GroupsMap) (gid : Option Nat) (cid : Nat) : Nat :=
  (gs.map (fun p =>
    if p.1 = gid then (p.2.connections.map Connection.connection_id).count cid
    else 0)).sum

/-- Group lookup by key, first match (keys are unique in practice). -/
def findGroup : GroupsMap → Option Nat → Option Group
  | [], _ => none
  | (k, g) :: rest, gid => if k = gid then some g else findGroup rest gid

/-- The connection list stored under key `gid`, `[]` when absent. -/
def connsAt (gs : GroupsMap) (gid : Option Nat) : List Connection :=
  match findGroup gs gid with
  | some g => g.connections
  | none => []

/-! ## Field-preservation lemmas for the facet updates -/

theorem addParam_shape (r : Row) (c : Connection) :
    addParam r c = { c with parameters := (addParam r c).parameters } := by
  unfold addParam
  cases h : r.parameter_name with
  | none => rfl
  | some s => by_cases hs : s = "" <;> simp only [hs, if_true, if_false]

theorem addAttr_shape (r : Row) (c : Connection) :
    addAttr r c = { c with attributes := (addAttr r c).attributes } := by
  unfold addAttr
  cases h : r.attribute_name with
  | none => rfl
  | some s => by_cases hs : s = "" <;> simp only [hs, if_true, if_false]

theorem addUser_shape (r : Row) (c : Connection) :
    addUser r c = { c with users := (addUser r c).users } := by
  unfold addUser; split <;> rfl

theorem addUserGroup_shape (r : Row) (c : Connection) :
    addUserGroup r c = { c with groups := (addUserGroup r c).groups } := by
  unfold addUserGroup; split <;> rfl

theorem addFacets_connection_id (r : Row) (c : Connection) :
    (addFacets r c).connection_id = c.connection_id := by
  rw [addFacets, addUserGroup_shape, addUser_shape, addAttr_shape, addParam_shape]

theorem addFacets_name (r : Row) (c : Connection) :
    (addFacets r c).name = c.name := by
  rw [addFacets, addUserGroup_shape, addUser_shape, addAttr_shape, addParam_shape]

theorem addFacets_protocol (r : Row) (c : Connection) :
    (addFacets r c).protocol = c.protocol := by
  rw [addFacets, addUserGroup_shape, addUser_shape, addAttr_shape, addParam_shape]

theorem addUser_users (r : Row) (c : Connection) :
    (addUser r c).users =
      if r.entity_type = some "USER" ∧ r.entity_name ∉ c.users then
        c.users ++ [r.entity_name]
      else c.users := by
  unfold addUser; split <;> rfl

theorem addUserGroup_groups (r : Row) (c : Connection) :
    (addUserGroup r c).groups =
      if r.entity_type = some "USER_GROUP" ∧ r.entity_name ∉ c.groups then
        c.groups ++ [r.entity_name]
      else c.groups := by
  unfold addUserGroup; split <;> rfl

theorem addFacets_users (r : Row) (c : Connection) :
    (addFacets r c).users =
      if r.entity_type = some "USER" ∧ r.entity_name ∉ c.users then
        c.users ++ [r.entity_name]
      else c.users := by
  rw [addFacets, addUserGroup_shape]
  show (addUser r (addAttr r (addParam r c))).users = _
  rw [addUser_users, addAttr_shape, addParam_shape]

theorem addFacets_groups (r : Row) (c : Connection) :
    (addFacets r c).groups =
      if r.entity_type = some "USER_GROUP" ∧ r.entity_name ∉ c.groups then
        c.groups ++ [r.entity_name]
      else c.groups := by
  rw [addFacets, addUserGroup_groups, addUser_shape, addAttr_shape, addParam_shape]

/-! ## Order and dedup lemmas for the aggregation fold -/

theorem newConnection_connection_id (r : Row) :
    (newConnection r).connection_id = r.connection_id := rfl

theorem connIds_updateConnList (r : Row) (cs : List Connection) :
    (updateConnList r cs).map Connection.connection_id =
      insStep (cs.map Connection.connection_id) r.connection_id := by
  induction cs with
  | nil =>
    simp [updateConnList, insStep, addFacets_connection_id, newConnection_connection_id]
  | cons c rest ih =>
    by_cases h : c.connection_id = r.connection_id
    · simp [updateConnList, h, insStep, addFacets_connection_id, List.mem_cons]
    · have h' : ¬ r.connection_id = c.connection_id := fun he => h he.symm
      by_cases hm : r.connection_id ∈ rest.map Connection.connection_id <;>
        simp [updateConnList, h, ih, insStep, List.mem_cons, h', hm]

theorem keys_updateGroups (gs : GroupsMap) (r : Row) :
    (updateGroups gs r).map Prod.fst =
      insStep (gs.map Prod.fst) r.connection_group_id := by
  induction gs with
  | nil => simp [updateGroups, insStep]
  | cons p rest ih =>
    obtain ⟨k, g⟩ := p
    by_cases h : k = r.connection_group_id
    · simp [updateGroups, h, insStep, List.mem_cons]
    · have h' : ¬ r.connection_group_id = k := fun he => h he.symm
      by_cases hm : r.connection_group_id ∈ rest.map Prod.fst <;>
        simp [updateGroups, h, ih, insStep, List.mem_cons, h', hm]

theorem connsAt_updateGroups_same (gs : GroupsMap) (r : Row) :
    connsAt (updateGroups gs r) r.connection_group_id =
      updateConnList r (connsAt gs r.connection_group_id) := by
  induction gs with
  | nil => simp [updateGroups, connsAt, findGroup]
  | cons p rest ih =>
    obtain ⟨k, g⟩ := p
    by_cases h : k = r.connection_group_id
    · simp [updateGroups, h, connsAt, findGroup]
    · simpa [updateGroups, h, connsAt, findGroup] using ih

theorem connsAt_updateGroups_other (gs : GroupsMap) (r : Row)
    (gid : Option Nat) (h : gid ≠ r.connection_group_id) :
    connsAt (updateGroups gs r) gid = connsAt gs gid := by
  have h' : r.connection_group_id ≠ gid := Ne.symm h
  induction gs with
  | nil => simp [updateGroups, connsAt, findGroup, h']
  | cons p rest ih =>
    obtain ⟨k, g⟩ := p
    by_cases hk : k = r.connection_group_id
    · subst hk
      simp [updateGroups, connsAt, findGroup, h']
    · by_cases hg : k = gid
      · subst hg
        simp [updateGroups, connsAt, findGroup, hk]
      · simpa [updateGroups, connsAt, findGroup, hk, hg] using ih

theorem connIds_foldl (rows : List Row) :
    ∀ (gs : GroupsMap) (gid : Option Nat),
      (connsAt (List.foldl updateGroups gs rows) gid).map Connection.connection_id =
        List.foldl insStep ((connsAt gs gid).map Connection.connection_id)
          ((rows.filter (fun r => decide (r.connection_group_id = gid))).map
            Row.connection_id) := by
  induction rows with
  | nil => intro gs gid; simp
  | cons r rest ih =>
    intro gs gid
    by_cases h : r.connection_group_id = gid
    · subst h
      simp only [List.foldl_cons, ih, List.filter_cons, decide_eq_true_eq,
        if_pos rfl, List.map_cons, connsAt_updateGroups_same,
        connIds_updateConnList]
      simp
    · have h' : gid ≠ r.connection_group_id := fun he => h he.symm
      simp only [List.foldl_cons, ih, List.filter_cons, decide_eq_true_eq]
      rw [if_neg h, connsAt_updateGroups_other gs r gid h']

theorem keys_foldl (rows : List Row) :
    ∀ (gs : GroupsMap),
      (List.foldl updateGroups gs rows).map Prod.fst =
        List.foldl insStep (gs.map Prod.fst)
          (rows.map Row.connection_group_id) := by
  induction rows with
  | nil => intro gs; simp
  | cons r rest ih =>
    intro gs
    simp only [List.foldl_cons, ih, List.map_cons, keys_updateGroups]

theorem mem_foldl_insStep {α : Type} [DecidableEq α] (l : List α) :
    ∀ (acc : List α) (a : α),
      a ∈ List.foldl insStep acc l ↔ a ∈ acc ∨ a ∈ l := by
  induction l with
  | nil => intro acc a; simp
  | cons x xs ih =>
    intro acc a
    rw [List.foldl_cons, ih]
    unfold insStep
    by_cases hx : x ∈ acc
    · simp only [if_pos hx, List.mem_cons]
      constructor
      · rintro (h | h)
        · exact Or.inl h
        · exact Or.inr (Or.inr h)
      · rintro (h | h | h)
        · exact Or.inl h
        · exact Or.inl (h ▸ hx)
        · exact Or.inr h
    · simp only [if_neg hx, List.mem_append, List.mem_singleton, List.mem_cons]
      tauto

theorem nodup_foldl_insStep {α : Type} [DecidableEq α] (l : List α) :
    ∀ (acc : List α), acc.Nodup → (List.foldl insStep acc l).Nodup := by
  induction l with
  | nil => intro acc h; simpa using h
  | cons x xs ih =>
    intro acc h
    rw [List.foldl_cons]
    apply ih
    unfold insStep
    by_cases hx : x ∈ acc
    · simpa [hx] using h
    · simp [hx, List.nodup_append, h]

/-! ## Counting connection objects in the aggregated structure -/

theorem pairCount_eq_zero_of_not_mem (gs : GroupsMap) (gid : Option Nat)
    (cid : Nat) (h : gid ∉ gs.map Prod.fst) : pairCount gs gid cid = 0 := by
  induction gs with
  | nil => rfl
  | cons p rest ih =>
    obtain ⟨k, g⟩ := p
    simp only [List.map_cons, List.mem_cons] at h
    push_neg at h
    have hk : ¬ k = gid := fun he => h.1 he.symm
    have ih' := ih h.2
    simp [pairCount, hk] at ih' ⊢
    exact ih'

theorem pairCount_eq_count (gs : GroupsMap) (gid : Option Nat) (cid : Nat)
    (h : (gs.map Prod.fst).Nodup) :
    pairCount gs gid cid =
      ((connsAt gs gid).map Connection.connection_id).count cid := by
  induction gs with
  | nil => simp [pairCount, connsAt, findGroup]
  | cons p rest ih =>
    obtain ⟨k, g⟩ := p
    simp only [List.map_cons, List.nodup_cons] at h
    by_cases hk : k = gid
    · subst hk
      have h0 : pairCount rest k cid = 0 :=
        pairCount_eq_zero_of_not_mem rest k cid h.1
      simp [pairCount, connsAt, findGroup] at h0 ⊢
      exact h0
    · simpa [pairCount, connsAt, findGroup, hk] using ih h.2

theorem keys_aggregate_nodup (rows : List Row) :
    ((aggregate rows).map Prod.fst).Nodup := by
  rw [aggregate, keys_foldl]
  exact nodup_foldl_insStep _ _ (by simp)

/-- The number of connection objects the aggregation holds for a
`(group_id, connection_id)` pair, as a count over the first-occurrence
order of that group's connection ids. -/
theorem pairCount_aggregate (rows : List Row) (gid : Option Nat) (cid : Nat) :
    pairCount (aggregate rows) gid cid =
      (firstOccurrenceOrder
        ((rows.filter (fun r => decide (r.connection_group_id = gid))).map
          Row.connection_id)).count cid := by
  rw [pairCount_eq_count _ _ _ (keys_aggregate_nodup rows), aggregate,
    connIds_foldl, firstOccurrenceOrder]
  simp [connsAt, findGroup]

/-! ## The no-duplicate-entity invariant -/

/-- The users and groups lists of a connection hold no duplicates. -/
def connDedupOk (c : Connection) : Prop := c.users.Nodup ∧ c.groups.Nodup

theorem connDedupOk_newConnection (r : Row) : connDedupOk (newConnection r) := by
  simp [connDedupOk, newConnection]

theorem connDedupOk_addFacets (r : Row) (c : Connection)
    (h : connDedupOk c) : connDedupOk (addFacets r c) := by
  constructor
  · rw [addFacets_users]
    split
    · rename_i hcond
      simp [List.nodup_append, h.1, hcond.2]
    · exact h.1
  · rw [addFacets_groups]
    split
    · rename_i hcond
      simp [List.nodup_append, h.2, hcond.2]
    · exact h.2

theorem updateConnList_dedupOk (r : Row) (cs : List Connection)
    (h : ∀ c ∈ cs, connDedupOk c) :
    ∀ c ∈ updateConnList r cs, connDedupOk c := by
  induction cs with
  | nil =>
    intro c hc
    simp only [updateConnList, List.mem_singleton] at hc
    subst hc
    exact connDedupOk_addFacets _ _ (connDedupOk_newConnection r)
  | cons c₀ rest ih =>
    intro c hc
    by_cases he : c₀.connection_id = r.connection_id
    · simp only [updateConnList, if_pos he, List.mem_cons] at hc
      rcases hc with hc | hc
      · subst hc
        exact connDedupOk_addFacets _ _ (h c₀ (by simp))
      · exact h c (by simp [hc])
    · simp only [updateConnList, if_neg he, List.mem_cons] at hc
      rcases hc with hc | hc
      · subst hc
        exact h c (by simp)
      · exact ih (fun c' hc' => h c' (by simp [hc'])) c hc

theorem updateGroups_dedupOk (gs : GroupsMap) (r : Row)
    (h : ∀ p ∈ gs, ∀ c ∈ p.2.connections, connDedupOk c) :
    ∀ p ∈ updateGroups gs r, ∀ c ∈ p.2.connections, connDedupOk c := by
  induction gs with
  | nil =>
    intro p hp c hc
    simp only [updateGroups, List.mem_singleton] at hp
    subst hp
    exact updateConnList_dedupOk r [] (by simp) c hc
  | cons q rest ih =>
    obtain ⟨k, g⟩ := q
    intro p hp c hc
    by_cases hk : k = r.connection_group_id
    · simp only [updateGroups, if_pos hk, List.mem_cons] at hp
      rcases hp with hp | hp
      · subst hp
        exact updateConnList_dedupOk r g.connections
          (fun c' hc' => h (k, g) (by simp) c' hc') c hc
      · exact h p (by simp [hp]) c hc
    · simp only [updateGroups, if_neg hk, List.mem_cons] at hp
      rcases hp with hp | hp
      · subst hp
        exact h (k, g) (by simp) c hc
      · exact ih (fun p' hp' => h p' (by simp [hp'])) p hp c hc

theorem foldl_dedupOk (rows : List Row) :
    ∀ gs : GroupsMap, (∀ p ∈ gs, ∀ c ∈ p.2.connections, connDedupOk c) →
      ∀ p ∈ List.foldl updateGroups gs rows, ∀ c ∈ p.2.connections,
        connDedupOk c := by
  induction rows with
  | nil => intro gs h; simpa using h
  | cons r rest ih => intro gs h; exact ih _ (updateGroups_dedupOk gs r h)

/-! ## The non-null-value invariant for the output format -/

/-- The row carries an actual value everywhere the loop would copy one:
a truthy parameter or attribute name comes with a non-null value, and a
matching entity type comes with a non-null entity name. -/
def rowValuesPresentB (r : Row) : Bool :=
  (match r.parameter_name with
   | some s => if s = "" then true else r.parameter_value.isSome
   | none => true) &&
  (match r.attribute_name with
   | some s => if s = "" then true else r.attribute_value.isSome
   | none => true) &&
  (if r.entity_type = some "USER" ∨ r.entity_type = some "USER_GROUP" then
    r.entity_name.isSome
   else true)

/-- Every value stored in the connection is non-null. -/
def connValuesPresent (c : Connection) : Prop :=
  (∀ p ∈ c.parameters, (p.2).isSome = true) ∧
  (∀ p ∈ c.attributes, (p.2).isSome = true) ∧
  (∀ u ∈ c.users, u.isSome = true) ∧
  (∀ g ∈ c.groups, g.isSome = true)

theorem connValuesPresent_newConnection (r : Row) :
    connValuesPresent (newConnection r) := by
  simp [connValuesPresent, newConnection]

theorem updateAssoc_forall {β : Type} (P : β → Prop) (m : List (String × β))
    (k : String) (v : β) (hm : ∀ p ∈ m, P p.2) (hv : P v) :
    ∀ p ∈ updateAssoc m k v, P p.2 := by
  induction m with
  | nil =>
    intro p hp
    simp only [updateAssoc, List.mem_singleton] at hp
    subst hp
    exact hv
  | cons q rest ih =>
    obtain ⟨k₁, v₁⟩ := q
    intro p hp
    by_cases hk : k₁ = k
    · simp only [updateAssoc, if_pos hk, List.mem_cons] at hp
      rcases hp with hp | hp
      · subst hp; exact hv
      · exact hm p (by simp [hp])
    · simp only [updateAssoc, if_neg hk, List.mem_cons] at hp
      rcases hp with hp | hp
      · subst hp; exact hm (k₁, v₁) (by simp)
      · exact ih (fun p' hp' => hm p' (by simp [hp'])) p hp

theorem connValuesPresent_addFacets (r : Row) (c : Connection)
    (hr : rowValuesPresentB r = true) (hc : connValuesPresent c) :
    connValuesPresent (addFacets r c) := by
  simp only [rowValuesPresentB, Bool.and_eq_true] at hr
  obtain ⟨⟨hr₁, hr₂⟩, hr₃⟩ := hr
  have husers : ∀ u ∈ (addFacets r c).users, u.isSome = true := by
    rw [addFacets_users]
    split
    · rename_i hcond
      intro u hu
      rcases List.mem_append.mp hu with hu | hu
      · exact hc.2.2.1 u hu
      · have : u = r.entity_name := by simpa using hu
        subst this
        simp only [if_pos (Or.inl hcond.1)] at hr₃
        exact hr₃
    · exact hc.2.2.1
  have hgroups : ∀ g ∈ (addFacets r c).groups, g.isSome = true := by
    rw [addFacets_groups]
    split
    · rename_i hcond
      intro g hg
      rcases List.mem_append.mp hg with hg | hg
      · exact hc.2.2.2 g hg
      · have : g = r.entity_name := by simpa using hg
        subst this
        simp only [if_pos (Or.inr hcond.1)] at hr₃
        exact hr₃
    · exact hc.2.2.2
  have hparams : ∀ p ∈ (addFacets r c).parameters, (p.2).isSome = true := by
    rw [addFacets, addUserGroup_shape, addUser_shape, addAttr_shape]
    show ∀ p ∈ (addParam r c).parameters, (p.2).isSome = true
    unfold addParam
    cases hp : r.parameter_name with
    | none => exact hc.1
    | some s =>
      rw [hp] at hr₁
      by_cases hs : s = ""
      · simpa [hs] using hc.1
      · simp only [if_neg hs] at hr₁ ⊢
        exact updateAssoc_forall (fun v : Option String => v.isSome = true) _ _ _ hc.1 hr₁
  have hattrs : ∀ p ∈ (addFacets r c).attributes, (p.2).isSome = true := by
    rw [addFacets, addUserGroup_shape, addUser_shape]
    show ∀ p ∈ (addAttr r (addParam r c)).attributes, (p.2).isSome = true
    have hcp : ∀ p ∈ (addParam r c).attributes, (p.2).isSome = true := by
      rw [addParam_shape]
      exact hc.2.1
    unfold addAttr
    cases ha : r.attribute_name with
    | none => exact hcp
    | some s =>
      rw [ha] at hr₂
      by_cases hs : s = ""
      · simpa [hs] using hcp
      · simp only [if_neg hs] at hr₂ ⊢
        exact updateAssoc_forall (fun v : Option String => v.isSome = true) _ _ _ hcp hr₂
  exact ⟨hparams, hattrs, husers, hgroups⟩

theorem updateConnList_valuesPresent (r : Row) (cs : List Connection)
    (hr : rowValuesPresentB r = true)
    (h : ∀ c ∈ cs, connValuesPresent c) :
    ∀ c ∈ updateConnList r cs, connValuesPresent c := by
  induction cs with
  | nil =>
    intro c hc
    simp only [updateConnList, List.mem_singleton] at hc
    subst hc
    exact connValuesPresent_addFacets _ _ hr (connValuesPresent_newConnection r)
  | cons c₀ rest ih =>
    intro c hc
    by_cases he : c₀.connection_id = r.connection_id
    · simp only [updateConnList, if_pos he, List.mem_cons] at hc
      rcases hc with hc | hc
      · subst hc
        exact connValuesPresent_addFacets _ _ hr (h c₀ (by simp))
      · exact h c (by simp [hc])
    · simp only [updateConnList, if_neg he, List.mem_cons] at hc
      rcases hc with hc | hc
      · subst hc
        exact h c (by simp)
      · exact ih (fun c' hc' => h c' (by simp [hc'])) c hc

theorem updateGroups_valuesPresent (gs : GroupsMap) (r : Row)
    (hr : rowValuesPresentB r = true)
    (h : ∀ p ∈ gs, ∀ c ∈ p.2.connections, connValuesPresent c) :
    ∀ p ∈ updateGroups gs r, ∀ c ∈ p.2.connections, connValuesPresent c := by
  induction gs with
  | nil =>
    intro p hp c hc
    simp only [updateGroups, List.mem_singleton] at hp
    subst hp
    exact updateConnList_valuesPresent r [] hr (by simp) c hc
  | cons q rest ih =>
    obtain ⟨k, g⟩ := q
    intro p hp c hc
    by_cases hk : k = r.connection_group_id
    · simp only [updateGroups, if_pos hk, List.mem_cons] at hp
      rcases hp with hp | hp
      · subst hp
        exact updateConnList_valuesPresent r g.connections hr
          (fun c' hc' => h (k, g) (by simp) c' hc') c hc
      · exact h p (by simp [hp]) c hc
    · simp only [updateGroups, if_neg hk, List.mem_cons] at hp
      rcases hp with hp | hp
      · subst hp
        exact h (k, g) (by simp) c hc
      · exact ih (fun p' hp' => h p' (by simp [hp'])) p hp c hc

theorem foldl_valuesPresent (rows : List Row) :
    ∀ gs : GroupsMap, (∀ r ∈ rows, rowValuesPresentB r = true) →
      (∀ p ∈ gs, ∀ c ∈ p.2.connections, connValuesPresent c) →
      ∀ p ∈ List.foldl updateGroups gs rows, ∀ c ∈ p.2.connections,
        connValuesPresent c := by
  induction rows with
  | nil => intro gs _ h; simpa using h
  | cons r rest ih =>
    intro gs hrows h
    exact ih _ (fun r' hr' => hrows r' (by simp [hr']))
      (updateGroups_valuesPresent gs r (hrows r (by simp)) h)

/-- A connection whose stored values are all non-null serializes to a JSON
object satisfying the output-format predicate. -/
theorem jsonStringLeavesOk_of_valuesPresent (c : Connection)
    (h : connValuesPresent c) :
    jsonStringLeavesOk (connectionToJson c) = true := by
  obtain ⟨h₁, h₂, h₃, h₄⟩ := h
  unfold connectionToJson jsonStringLeavesOk
  simp only [Bool.and_eq_true, List.all_eq_true, decide_eq_true_eq,
    true_and, and_true, eq_self_iff_true]
  refine ⟨⟨⟨?_, ?_⟩, ?_⟩, ?_⟩
  · intro p hp
    obtain ⟨q, hq, hq2⟩ := List.mem_map.mp hp
    obtain ⟨v, hv⟩ := Option.isSome_iff_exists.mp (h₁ q hq)
    subst hq2
    simp [optStrToJson, hv, isJStr]
  · intro p hp
    obtain ⟨q, hq, hq2⟩ := List.mem_map.mp hp
    obtain ⟨v, hv⟩ := Option.isSome_iff_exists.mp (h₂ q hq)
    subst hq2
    simp [optStrToJson, hv, isJStr]
  · intro u hu
    obtain ⟨q, hq, hq2⟩ := List.mem_map.mp hu
    obtain ⟨v, hv⟩ := Option.isSome_iff_exists.mp (h₃ q hq)
    subst hq2
    simp [optStrToJson, hv, isJStr]
  · intro g hg
    obtain ⟨q, hq, hq2⟩ := List.mem_map.mp hg
    obtain ⟨v, hv⟩ := Option.isSome_iff_exists.mp (h₄ q hq)
    subst hq2
    simp [optStrToJson, hv, isJStr]

/-! ## Concrete demonstration inputs -/

/-- A row with every nullable column null and connection id 0. -/
def blankRow : Row :=
  { connection_id := 0, name := none, protocol := none,
    parameter_name := none, parameter_value := none,
    attribute_name := none, attribute_value := none,
    connection_group_id := none, group_name := none,
    entity_name := none, entity_type := none }

/-- A row for connection 7 in group 1. -/
def rPair : Row :=
  { blankRow with connection_id := 7, connection_group_id := some 1 }

/-- Connection 5 first reported in group 1. -/
def rDupA : Row :=
  { blankRow with connection_id := 5, connection_group_id := some 1 }

/-- Connection 5 later reported in group 2 (an inconsistent foreign key). -/
def rDupB : Row :=
  { blankRow with connection_id := 5, connection_group_id := some 2 }

/-- A permission row of entity type `USER` with a null entity name. -/
def rNullUser : Row :=
  { blankRow with connection_id := 3, entity_type := some "USER" }

/-- A user grant row for alice on connection 2 in group 1. -/
def rUserDup : Row :=
  { blankRow with
    connection_id := 2
    connection_group_id := some 1
    entity_type := some "USER"
    entity_name := some "alice" }

/-- A row naming parameter `hostname` but carrying a null value for it. -/
def rNullParam : Row :=
  { blankRow with connection_id := 1, parameter_name := some "hostname" }

/-- A fully-valued row: parameter `hostname = 10.0.0.1`, user alice. -/
def rGood : Row :=
  { blankRow with
    connection_id := 1
    connection_group_id := some 1
    parameter_name := some "hostname"
    parameter_value := some "10.0.0.1"
    entity_type := some "USER"
    entity_name := some "alice" }

/-- A row for connection 42 with all nullable columns null. -/
def row42 : Row := { blankRow with connection_id := 42 }

/-- A row whose name, protocol, group name, parameter name and attribute
name are all the empty string. -/
def rowEmpty : Row :=
  { blankRow with
    connection_id := 9
    name := some ""
    protocol := some ""
    group_name := some ""
    parameter_name := some ""
    attribute_name := some "" }

/-- The type declaration string `enum('ssh','vnc','rdp')`, spelled by
character so the quote marks stay out of the source text. -/
def enumDemo : String := String.mk
  ['e', 'n', 'u', 'm', '(', squote, 's', 's', 'h', squote, ',',
   squote, 'v', 'n', 'c', squote, ',', squote, 'r', 'd', 'p', squote, ')']

/-- The single connection object produced by aggregating `[rUserDup, rUserDup]`. -/
def conn5demo : Connection :=
  { connection_id := 2, name := "Unnamed Connection 2", protocol := "ssh",
    parameters := [], attributes := [], users := [some "alice"], groups := [] }

/-- The single group entry produced by aggregating `[rUserDup, rUserDup]`. -/
def pair5demo : Option Nat × Group :=
  (some 1, { group_name := "ROOT", connections := [conn5demo] })

/-- The single connection object produced by aggregating `[rGood]`. -/
def conn9demo : Connection :=
  { connection_id := 1, name := "Unnamed Connection 1", protocol := "ssh",
    parameters := [("hostname", some "10.0.0.1")], attributes := [],
    users := [some "alice"], groups := [] }

/-- The single group entry produced by aggregating `[rGood]`. -/
def pair9demo : Option Nat × Group :=
  (some 1, { group_name := "ROOT", connections := [conn9demo] })

/-! ## The claims -/

/-- C1: for every finite input row sequence, if the same
`(group_id, connection_id)` pair occurs in more than one row, the
aggregated output contains exactly one connection object for that pair:
the first such row creates it and every later row folds into it. -/
theorem claim1_pair_dedup (rows : List Row) (gid : Option Nat) (cid : Nat)
    (h : 2 ≤ (rows.filter (fun r =>
      decide (r.connection_group_id = gid ∧ r.connection_id = cid))).length) :
    pairCount (aggregate rows) gid cid = 1 := by
  rw [pairCount_aggregate]
  have hne : rows.filter (fun r =>
      decide (r.connection_group_id = gid ∧ r.connection_id = cid)) ≠ [] := by
    intro hE
    rw [hE] at h
    simp at h
  obtain ⟨r, hr⟩ := List.exists_mem_of_ne_nil _ hne
  have hr' := List.mem_filter.mp hr
  have hprop := of_decide_eq_true hr'.2
  have hmem : cid ∈ (rows.filter (fun r =>
      decide (r.connection_group_id = gid))).map Row.connection_id :=
    List.mem_map.mpr
      ⟨r, List.mem_filter.mpr ⟨hr'.1, by simp [hprop.1]⟩, hprop.2⟩
  have hmem2 : cid ∈ firstOccurrenceOrder ((rows.filter (fun r =>
      decide (r.connection_group_id = gid))).map Row.connection_id) := by
    rw [firstOccurrenceOrder]
    exact (mem_foldl_insStep _ [] cid).mpr (Or.inr hmem)
  exact List.count_eq_one_of_mem
    (by rw [firstOccurrenceOrder]; exact nodup_foldl_insStep _ [] (by simp))
    hmem2

/-- Witness for C1: connection 7 of group 1 reported twice still yields a
single connection object for the pair. -/
theorem claim1_pair_dedup_witness :
    2 ≤ ([rPair, rPair].filter (fun r =>
      decide (r.connection_group_id = some 1 ∧ r.connection_id = 7))).length ∧
    pairCount (aggregate [rPair, rPair]) (some 1) 7 = 1 :=
  ⟨by decide, claim1_pair_dedup [rPair, rPair] (some 1) 7 (by decide)⟩

/-- Counterexample to C2: the code deduplicates per
`(group_id, connection_id)` pair, not per connection id. When rows carry
connection 5 first under group 1 and then under group 2, the output holds
a connection object with id 5 under BOTH groups, refuting "each connection
identifier appears under exactly one group ... the first-seen group wins
and no second copy is created under the other group". -/
theorem claim2_counterexample :
    pairCount (aggregate [rDupA, rDupB]) (some 1) 5 = 1 ∧
    pairCount (aggregate [rDupA, rDupB]) (some 2) 5 = 1 := by decide

/-- C2 (amended): when every row bearing a connection identifier carries
the same group identifier — the well-formed foreign-key case — that
connection appears under exactly that one group; under inconsistent group
identifiers the loop creates a separate connection object per group (the
first-seen group does not win). -/
theorem claim2_amended_first_group (rows : List Row) (cid : Nat)
    (gid : Option Nat)
    (hex : ∃ r ∈ rows, r.connection_id = cid ∧ r.connection_group_id = gid)
    (hall : ∀ r ∈ rows, r.connection_id = cid → r.connection_group_id = gid) :
    ∀ gid' : Option Nat,
      pairCount (aggregate rows) gid' cid = if gid' = gid then 1 else 0 := by
  intro gid'
  rw [pairCount_aggregate]
  by_cases hg : gid' = gid
  · subst hg
    rw [if_pos rfl]
    obtain ⟨r, hrmem, hrcid, hrgid⟩ := hex
    have hmem : cid ∈ (rows.filter (fun r =>
        decide (r.connection_group_id = gid'))).map Row.connection_id :=
      List.mem_map.mpr
        ⟨r, List.mem_filter.mpr ⟨hrmem, by simp [hrgid]⟩, hrcid⟩
    have hmem2 : cid ∈ firstOccurrenceOrder ((rows.filter (fun r =>
        decide (r.connection_group_id = gid'))).map Row.connection_id) := by
      rw [firstOccurrenceOrder]
      exact (mem_foldl_insStep _ [] cid).mpr (Or.inr hmem)
    exact List.count_eq_one_of_mem
      (by rw [firstOccurrenceOrder]; exact nodup_foldl_insStep _ [] (by simp))
      hmem2
  · rw [if_neg hg]
    apply List.count_eq_zero.mpr
    intro hmem
    rw [firstOccurrenceOrder] at hmem
    rcases (mem_foldl_insStep _ [] cid).mp hmem with h0 | h0
    · simp at h0
    · obtain ⟨r, hrf, hrcid⟩ := List.mem_map.mp h0
      have hf := List.mem_filter.mp hrf
      have hrg : r.connection_group_id = gid' := of_decide_eq_true hf.2
      exact hg (hrg ▸ hall r hf.1 hrcid)

/-- Witness for C2 (amended): one row for connection 7 in group 1 yields
exactly one object under group 1 and none under group 2. -/
theorem claim2_amended_first_group_witness :
    pairCount (aggregate [rPair]) (some 1) 7 = 1 ∧
    pairCount (aggregate [rPair]) (some 2) 7 = 0 := by
  have h := claim2_amended_first_group [rPair] 7 (some 1)
    ⟨rPair, by simp, by decide, by decide⟩
    (fun r hr _ => by rw [List.mem_singleton.mp hr]; decide)
  exact ⟨by simpa using h (some 1), by simpa using h (some 2)⟩

/-- Counterexample to C3: with zero rows the function returns early
(lines 101-103): no export document is produced at all, so in particular
none whose connections list is empty. -/
theorem claim3_counterexample :
    ¬ ∃ d : ExportDoc, export_to_json [] [] = some d ∧ d.connections = [] := by
  simp [export_to_json]

/-- C3 (amended): zero joined rows is not fatal — the function returns
normally — but no output document is produced: the early return of lines
101-103 skips building and writing the export entirely. -/
theorem claim3_amended_empty_input :
    ∀ dropdown_options : List (String × List String),
      export_to_json dropdown_options [] = none := by
  intro dropdown_options
  simp [export_to_json]

/-- Counterexample to C4: the source has no null check on the entity name
(lines 141, 145). A row with entity type `USER` and a null entity name
appends a null entry to the connection's users list, refuting "a row with
a null entity name never contributes an entry to either list". -/
theorem claim4_counterexample :
    (aggregate [rNullUser]).map (fun p => p.2.connections.map Connection.users)
      = [[[(none : Option String)]]] := by decide

/-- C4 (amended): for every row, an entry is appended to the connection's
users list if and only if the row's entity type is `USER` and the entity
name — null included — is not already in the list; likewise for
`USER_GROUP` and the groups list. The non-null requirement of the original
claim is absent from the code. -/
theorem claim4_amended_entity_append (r : Row) (c : Connection) :
    ((addFacets r c).users =
      if r.entity_type = some "USER" ∧ r.entity_name ∉ c.users then
        c.users ++ [r.entity_name]
      else c.users) ∧
    ((addFacets r c).groups =
      if r.entity_type = some "USER_GROUP" ∧ r.entity_name ∉ c.groups then
        c.groups ++ [r.entity_name]
      else c.groups) :=
  ⟨addFacets_users r c, addFacets_groups r c⟩

/-- C5: for every connection object in the output of any input row
sequence, the users list contains no duplicate names and the groups list
contains no duplicate names, however many permission rows reference the
same entity. -/
theorem claim5_no_duplicate_entities (rows : List Row)
    (p : Option Nat × Group) (hp : p ∈ aggregate rows)
    (c : Connection) (hc : c ∈ p.2.connections) :
    c.users.Nodup ∧ c.groups.Nodup :=
  foldl_dedupOk rows [] (by simp) p hp c hc

/-- Witness for C5: the same user grant row twice yields a users list with
one entry and no duplicates. -/
theorem claim5_no_duplicate_entities_witness :
    conn5demo.users.Nodup ∧ conn5demo.groups.Nodup :=
  claim5_no_duplicate_entities [rUserDup, rUserDup] pair5demo (by decide)
    conn5demo (by decide)

/-- C6: on the first row introducing a connection or group, a null
connection name with connection id 42 yields the name
`Unnamed Connection 42`, a null protocol yields `ssh`, and a null group
name yields the group name `ROOT`. -/
theorem claim6_default_substitution (r : Row)
    (h₁ : r.name = none) (h₂ : r.protocol = none) (h₃ : r.group_name = none)
    (h₄ : r.connection_id = 42) :
    ∃ c : Connection,
      aggregate [r] = [(r.connection_group_id,
        { group_name := "ROOT", connections := [c] })] ∧
      c.connection_id = 42 ∧ c.name = "Unnamed Connection 42" ∧
      c.protocol = "ssh" := by
  refine ⟨addFacets r (newConnection r), ?_, ?_, ?_, ?_⟩
  · simp [aggregate, updateGroups, updateConnList, h₃, pyOr]
  · rw [addFacets_connection_id, newConnection_connection_id, h₄]
  · rw [addFacets_name]
    have hn : (newConnection r).name =
        pyOr r.name ("Unnamed Connection " ++ toString r.connection_id) := rfl
    rw [hn, h₁, h₄]
    decide
  · rw [addFacets_protocol]
    have hp : (newConnection r).protocol = pyOr r.protocol "ssh" := rfl
    rw [hp, h₂]
    decide

/-- Witness for C6: the all-null row for connection 42. -/
theorem claim6_default_substitution_witness :
    ∃ c : Connection,
      aggregate [row42] = [(row42.connection_group_id,
        { group_name := "ROOT", connections := [c] })] ∧
      c.connection_id = 42 ∧ c.name = "Unnamed Connection 42" ∧
      c.protocol = "ssh" :=
  claim6_default_substitution row42 rfl rfl rfl rfl

/-- C7: groups appear in the output in the order their group identifiers
first occur in the input, and within each group the connections appear in
the order their connection identifiers first occur among that group's
rows. -/
theorem claim7_order_preservation (rows : List Row) :
    (aggregate rows).map Prod.fst =
      firstOccurrenceOrder (rows.map Row.connection_group_id) ∧
    ∀ gid : Option Nat,
      (connsAt (aggregate rows) gid).map Connection.connection_id =
        firstOccurrenceOrder ((rows.filter (fun r =>
          decide (r.connection_group_id = gid))).map Row.connection_id) := by
  constructor
  · rw [aggregate, keys_foldl, firstOccurrenceOrder]
    rfl
  · intro gid
    rw [aggregate, connIds_foldl, firstOccurrenceOrder]
    simp [connsAt, findGroup]

/-- C8: the enum metadata extractor maps the declaration
`enum('ssh','vnc','rdp')` (the string `enumDemo`) to the list
`["ssh", "vnc", "rdp"]`: wrapper and quotes stripped, split on commas,
declaration order preserved — both for the bare parser and through the
`fetch_dropdown_options` loop. -/
theorem claim8_enum_parsing :
    parseEnumOptions enumDemo = ["ssh", "vnc", "rdp"] ∧
    fetch_dropdown_options [("protocol", enumDemo)] =
      [("protocol", ["ssh", "vnc", "rdp"])] := by decide

/-- Counterexample to C9: a row naming parameter `hostname` with a null
parameter value produces an output connection whose serialized form has a
null leaf, refuting "every other leaf value is a string". -/
theorem claim9_counterexample :
    (aggregate [rNullParam]).map (fun p =>
      p.2.connections.map (fun c => jsonStringLeavesOk (connectionToJson c)))
      = [[false]] := by decide

/-- C9 (amended): every output connection object unconditionally carries
the seven fields in order with an integer `connection_id`; and every other
leaf value is a string provided each row carries a non-null value wherever
the loop copies one (non-null parameter and attribute values for truthy
names, non-null entity names for matching entity types) — a null row value
there is copied through as a null leaf instead. -/
theorem claim9_amended_output_shape (rows : List Row)
    (hrows : ∀ r ∈ rows, rowValuesPresentB r = true) :
    ∀ p ∈ aggregate rows, ∀ c ∈ p.2.connections,
      jsonStringLeavesOk (connectionToJson c) = true := fun p hp c hc =>
  jsonStringLeavesOk_of_valuesPresent c
    (foldl_valuesPresent rows [] hrows (by simp) p hp c hc)

/-- Witness for C9 (amended): the fully-valued row `rGood` yields a
connection whose serialization satisfies the output-format predicate. -/
theorem claim9_amended_output_shape_witness :
    jsonStringLeavesOk (connectionToJson conn9demo) = true :=
  claim9_amended_output_shape [rGood] (by decide) pair9demo (by decide)
    conn9demo (by decide)

/-- C10: the aggregator treats the empty string like null wherever it
tests for absence — an empty connection name, protocol or group name
receives the respective fallback, and an empty parameter or attribute name
contributes no entry to that facet's mapping. -/
theorem claim10_empty_string_as_null (r : Row)
    (h₁ : r.name = some "") (h₂ : r.protocol = some "")
    (h₃ : r.group_name = some "") (h₄ : r.parameter_name = some "")
    (h₅ : r.attribute_name = some "") :
    ∃ c : Connection,
      aggregate [r] = [(r.connection_group_id,
        { group_name := "ROOT", connections := [c] })] ∧
      c.name = "Unnamed Connection " ++ toString r.connection_id ∧
      c.protocol = "ssh" ∧ c.parameters = [] ∧ c.attributes = [] := by
  refine ⟨addFacets r (newConnection r), ?_, ?_, ?_, ?_, ?_⟩
  · simp [aggregate, updateGroups, updateConnList, h₃, pyOr]
  · rw [addFacets_name]
    have hn : (newConnection r).name =
        pyOr r.name ("Unnamed Connection " ++ toString r.connection_id) := rfl
    rw [hn, h₁]
    simp [pyOr]
  · rw [addFacets_protocol]
    have hp : (newConnection r).protocol = pyOr r.protocol "ssh" := rfl
    rw [hp, h₂]
    simp [pyOr]
  · rw [addFacets, addUserGroup_shape, addUser_shape, addAttr_shape]
    show (addParam r (newConnection r)).parameters = []
    unfold addParam
    rw [h₄]
    simp [newConnection]
  · rw [addFacets, addUserGroup_shape, addUser_shape]
    show (addAttr r (addParam r (newConnection r))).attributes = []
    unfold addAttr
    rw [h₅]
    simp only [if_pos rfl]
    rw [addParam_shape]
    simp [newConnection]

/-- Witness for C10: the all-empty-string row for connection 9. -/
theorem claim10_empty_string_as_null_witness :
    ∃ c : Connection,
      aggregate [rowEmpty] = [(rowEmpty.connection_group_id,
        { group_name := "ROOT", connections := [c] })] ∧
      c.name = "Unnamed Connection " ++ toString rowEmpty.connection_id ∧
      c.protocol = "ssh" ∧ c.parameters = [] ∧ c.attributes = [] :=
  claim10_empty_string_as_null rowEmpty rfl rfl rfl rfl rfl

end KCM
